import Mathlib

/-!
# Verification of the vmd per-VM process core (usr.sbin/vmd/vm.c)

A shallow embedding of the VM lifecycle, pause, guest-memory allocation and
live-migration send/restore logic of `src/usr.sbin/vmd/vm.c`, together with
theorems settling the frozen specification claims.

Modelling conventions:
* C machine integers are `Nat` (with explicit `% 2 ^ 64` where `size_t`
  wrap-around matters) or `Int` for C `int` return values.
* Guest memory is a function `Nat → Nat` from byte address to byte value.
* The migration byte stream is modelled at the granularity of the records
  `atomicio` writes/reads: one constructor per C struct written.  A read that
  finds a record of the wrong shape corresponds to reading garbage bytes and
  is modelled as a fatal error (`none`), matching the `fatal` calls of the
  restore path.
* Fallible external operations (`mmap`, ioctls, pthread operations, writes)
  are driven by explicit environment/oracle records, one field per failure
  point of the source.
-/

set_option autoImplicit false

/-- `PAGE_SIZE` on OpenBSD amd64, from `sys/param.h` (used by `dump_vmr` /
`restore_vmr` as the fixed chunk size). -/
def PAGE_SIZE : Nat := 4096

/-- `2 ^ 64`, the modulus of `size_t` arithmetic (`rem` in `dump_vmr`). -/
def SIZE_T_MOD : Nat := 2 ^ 64

/-- Memory range types from `dev/vmm/vmm.h` (`VM_MEM_RAM`, `VM_MEM_RESERVED`,
`VM_MEM_MMIO`).  Only distinctness of the constructors matters. -/
inductive MemType where
  | ram
  | reserved
  | mmio
  deriving DecidableEq, Repr

/-- `struct vm_mem_range`: guest-physical base, length, type and the virtual
address of the userspace mapping once allocated. -/
structure MemRange where
  vmr_gpa : Nat
  vmr_size : Nat
  vmr_type : MemType
  vmr_va : Nat
  deriving DecidableEq, Repr

/-- The creation parameters the claims need, from
`struct vmop_create_params` / `struct vm_create_params`: the VCPU count,
the memory-range list (`vcp_nmemranges` is its length), and the disk/NIC
counts. -/
structure VmCfg where
  vcp_ncpus : Nat
  vcp_memranges : List MemRange
  vmc_ndisks : Nat
  vmc_nnics : Nat

/-- Guest memory contents: byte address to byte value. -/
def GMem : Type := Nat → Nat

/-- The per-VM kernel-side state reachable through the vmm(4) ioctls:
per-VCPU register state (`VMM_IOC_READREGS`/`WRITEREGS`), per-VCPU VM
parameters (`VMM_IOC_READVMPARAMS`/`WRITEVMPARAMS`) and guest memory
(`read_mem`/`write_mem`).  Register and parameter contents are opaque bit
patterns, represented as `Nat`. -/
structure KernState where
  regs : Nat → Nat
  vmparams : Nat → Nat
  mem : GMem

/- ### The `rem` counter of `dump_vmr` / `restore_vmr` (claim C10)

`dump_vmr` and `restore_vmr` loop `while (rem > 0)` with
`rem = rem - PAGE_SIZE` on a `size_t`, starting from `vmr->vmr_size`. -/

/-- Value of the `size_t` variable `rem` of `dump_vmr`/`restore_vmr` after
`k` loop iterations, starting from `size`. C unsigned subtraction is
addition of `2 ^ 64 - PAGE_SIZE` modulo `2 ^ 64`. -/
def dumpVmrRem (size : Nat) : Nat → Nat
  | 0 => size % SIZE_T_MOD
  | k + 1 => (dumpVmrRem size k + (SIZE_T_MOD - PAGE_SIZE)) % SIZE_T_MOD

/- ### pause_vm (claim C5) -/

/-- Outcomes of the pthread operations `pause_vm` performs, one field per
failure point in the source (each failure is logged and aborts the rest of
the function). -/
structure PauseEnv where
  barrierInitOk : Bool
  broadcastOk : Nat → Bool
  barrierWaitOk : Bool
  barrierDestroyOk : Bool

/-- Observable actions of `pause_vm`, in program order: barrier creation
(with its party count), per-VCPU run-condition broadcast, the controller's
own barrier wait, barrier destruction, and the machine-dependent pause
hook `pause_vm_md`. -/
inductive PauseEv where
  | barrierInit (count : Nat)
  | runCondBroadcast (i : Nat)
  | barrierWait
  | barrierDestroy
  | mdPauseHook
  deriving DecidableEq, Repr

/-- The `pthread_cond_broadcast(&vcpu_run_cond[n])` loop of `pause_vm`:
broadcast for VCPU indices `base, base+1, ...` (`cnt` many); a failing
broadcast returns immediately. Returns whether all broadcasts succeeded
and the events so far. -/
def pauseBroadcasts (env : PauseEnv) (base : Nat) : Nat → Bool × List PauseEv
  | 0 => (true, [])
  | cnt + 1 =>
    if env.broadcastOk base then
      let r := pauseBroadcasts env (base + 1) cnt
      (r.1, PauseEv.runCondBroadcast base :: r.2)
    else
      (false, [])

/-- `pause_vm` (vm.c:650-695), over the paused flag and the VCPU count:
if `VM_STATE_PAUSED` is already set, unlock and return (no event);
otherwise set the flag under `vm_mtx`, initialize the pause barrier with
`ncpus + 1` parties, broadcast every `vcpu_run_cond`, wait on the barrier,
destroy it, and call `pause_vm_md`.  Any pthread failure is logged and the
function returns early (flag left set). Result: new paused flag and the
performed actions in order. -/
def pause_vm (env : PauseEnv) (ncpus : Nat) (paused : Bool) :
    Bool × List PauseEv :=
  if paused then
    (paused, [])
  else if ¬ env.barrierInitOk then
    (true, [])
  else
    let b := pauseBroadcasts env 0 ncpus
    if ¬ b.1 then
      (true, PauseEv.barrierInit (ncpus + 1) :: b.2)
    else if ¬ env.barrierWaitOk then
      (true, PauseEv.barrierInit (ncpus + 1) :: b.2 ++ [PauseEv.barrierWait])
    else if ¬ env.barrierDestroyOk then
      (true, PauseEv.barrierInit (ncpus + 1) :: b.2 ++ [PauseEv.barrierWait])
    else
      (true, PauseEv.barrierInit (ncpus + 1) :: b.2 ++
        [PauseEv.barrierWait, PauseEv.barrierDestroy, PauseEv.mdPauseHook])

/-- All pthread operations `pause_vm` performs for `ncpus` VCPUs succeed. -/
def PauseEnvOk (env : PauseEnv) (ncpus : Nat) : Prop :=
  env.barrierInitOk = true ∧ (∀ i, i < ncpus → env.broadcastOk i = true) ∧
    env.barrierWaitOk = true ∧ env.barrierDestroyOk = true

instance (env : PauseEnv) (n : Nat) : Decidable (PauseEnvOk env n) := by
  unfold PauseEnvOk
  infer_instance

/- ### alloc_guest_mem, remap_guest_mem, vmm_create_vm, start_vm prefix
(claims C3, C4, C7) -/

/-- A live userspace mapping: `(virtual address, length)`. -/
abbrev Mapping : Type := Nat × Nat

/-- `munmap(va, size)`: remove the first matching live mapping. -/
def munmapRemove (live : List Mapping) (m : Mapping) : List Mapping :=
  match live with
  | [] => []
  | x :: xs => if x = m then xs else x :: munmapRemove xs m

/-- The rollback loop of `alloc_guest_mem` (vm.c:801-804): on an `mmap`
failure at range `i`, `munmap` the virtual address recorded in each range
`j < i`, in ascending order.  `done` is the list of ranges already mapped
(with their `vmr_va` set). -/
def allocRollback (done : List MemRange) (live : List Mapping) : List Mapping :=
  match done with
  | [] => live
  | r :: rest => allocRollback rest (munmapRemove live (r.vmr_va, r.vmr_size))

/-- Worker for `alloc_guest_mem`: `idx` is the current range index, `done`
the ranges already processed (with `vmr_va` filled in), `live` the live
mappings created by this call.  The `mmap` outcome for range `i` is
`mmapOr i` (`.ok va` or `.error errno`).  On failure the previously
created mappings are unmapped and `(errno, residual mappings)` returned;
on success the updated ranges and live mappings. -/
def alloc_guest_mem_go (mmapOr : Nat → Except Nat Nat) (idx : Nat)
    (done : List MemRange) (live : List Mapping) :
    List MemRange → Except (Nat × List Mapping) (List MemRange × List Mapping)
  | [] => .ok (done, live)
  | r :: rest =>
    match mmapOr idx with
    | .error e => .error (e, allocRollback done live)
    | .ok va =>
      alloc_guest_mem_go mmapOr (idx + 1) (done ++ [{ r with vmr_va := va }])
        (live ++ [(va, r.vmr_size)]) rest

/-- `alloc_guest_mem` (vm.c:778-811): `mmap` one anonymous shared R/W
mapping per memory range (note: the source loops over *all* ranges of
`vcp_memranges`, with no check of `vmr_type`), recording the address in
`vmr_va`; on any failure unmap every mapping created earlier in the call
and return the `errno`. -/
def alloc_guest_mem (mmapOr : Nat → Except Nat Nat) (ranges : List MemRange) :
    Except (Nat × List Mapping) (List MemRange × List Mapping) :=
  alloc_guest_mem_go mmapOr 0 [] [] ranges

/-- Worker for `remap_guest_mem` (vm.c:1418-1445): for each range in order,
an MMIO range gets `vmr_va = 0` and is skipped; any other range gets a
fresh placeholder `mmap`, failure unwinding the earlier mappings and
returning the `errno`. -/
def remap_guest_mem_go (mmapOr : Nat → Except Nat Nat) (idx : Nat) :
    List MemRange → Except Nat (List MemRange)
  | [] => .ok []
  | r :: rest =>
    if r.vmr_type = MemType.mmio then
      match remap_guest_mem_go mmapOr (idx + 1) rest with
      | .error e => .error e
      | .ok out => .ok ({ r with vmr_va := 0 } :: out)
    else
      match mmapOr idx with
      | .error e => .error e
      | .ok va =>
        match remap_guest_mem_go mmapOr (idx + 1) rest with
        | .error e => .error e
        | .ok out => .ok ({ r with vmr_va := va } :: out)

/-- `remap_guest_mem` (vm.c:1390-1468): pick fresh virtual addresses for all
non-MMIO ranges (placeholder `mmap`s, later released), leave every MMIO
range's `vmr_va` at 0, then ask vmm(4) via `VMM_IOC_SHAREMEM` to recreate
the mappings; an ioctl failure returns its errno (modelled as 5). -/
def remap_guest_mem (mmapOr : Nat → Except Nat Nat) (ranges : List MemRange)
    (iocShareOk : Bool) : Except Nat (List MemRange) :=
  match remap_guest_mem_go mmapOr 0 ranges with
  | .error e => .error e
  | .ok out => if iocShareOk then .ok out else .error 5

/-- `VMM_MAX_VCPUS_PER_VM`.  Modelled from the spec: the platform maximum
VCPU count lives in `dev/vmm/vmm.h`, which is outside the sources; the
concrete value does not matter to any claim. -/
def VMM_MAX_VCPUS_PER_VM : Nat := 64

/-- `VMM_MAX_MEM_RANGES`.  Modelled from the spec: the maximum memory-range
count from `dev/vmm/vmm.h` (outside the sources). -/
def VMM_MAX_MEM_RANGES : Nat := 16

/-- `VM_MAX_DISKS_PER_VM`.  Modelled from the spec: maximum disk count from
`vmd.h` (outside the sources). -/
def VM_MAX_DISKS_PER_VM : Nat := 4

/-- `VM_MAX_NICS_PER_VM`.  Modelled from the spec: maximum NIC count from
`vmd.h` (outside the sources). -/
def VM_MAX_NICS_PER_VM : Nat := 4

/-- `EINVAL`. -/
def EINVAL : Nat := 22

/-- The parameter sanity checks of `vmm_create_vm` (vm.c:833-845), performed
*inside* `vmm_create_vm`, i.e. only after `alloc_guest_mem` has run:
`some EINVAL` when the configuration is invalid, `none` when the checks
pass and the `VMM_IOC_CREATE` ioctl is issued. -/
def vmm_create_vm_check (cfg : VmCfg) : Option Nat :=
  if cfg.vcp_ncpus > VMM_MAX_VCPUS_PER_VM then some EINVAL
  else if cfg.vcp_memranges.length = 0 ∨
      cfg.vcp_memranges.length > VMM_MAX_MEM_RANGES then some EINVAL
  else if cfg.vmc_ndisks > VM_MAX_DISKS_PER_VM then some EINVAL
  else if cfg.vmc_nnics > VM_MAX_NICS_PER_VM then some EINVAL
  else none

/-- Outcome of the resource-acquisition prefix of `start_vm`. -/
structure StartOut where
  result : Except Nat Unit
  /-- The guest-memory mappings held at the moment `start_vm` returns or
  proceeds. -/
  heldMappings : List Mapping
  /-- Whether the `VMM_IOC_CREATE` ioctl (in-kernel VM object creation) was
  reached. -/
  kernelCreateAttempted : Bool
  deriving Repr

/-- The resource-acquisition prefix of `start_vm` (vm.c:201-225): first
`alloc_guest_mem` (returning its errno on failure), then `vmm_create_vm`,
whose sanity checks reject an invalid configuration with `EINVAL` before
the `VMM_IOC_CREATE` ioctl; `iocCreateOk` is the ioctl outcome (13 = its
errno on failure). -/
def start_vm_head (mmapOr : Nat → Except Nat Nat) (iocCreateOk : Bool)
    (cfg : VmCfg) : StartOut :=
  match alloc_guest_mem mmapOr cfg.vcp_memranges with
  | .error em => ⟨.error em.1, em.2, false⟩
  | .ok outlive =>
    match vmm_create_vm_check cfg with
    | some e => ⟨.error e, outlive.2, false⟩
    | none =>
      if iocCreateOk then ⟨.ok (), outlive.2, true⟩
      else ⟨.error 13, outlive.2, true⟩

/-- An invalid configuration in the sense of the claim: CPU count above the
platform maximum, memory-range count outside `[1, max]`, or disk/NIC
counts above their maxima. -/
def InvalidCfg (cfg : VmCfg) : Prop :=
  cfg.vcp_ncpus > VMM_MAX_VCPUS_PER_VM ∨
    cfg.vcp_memranges.length = 0 ∨
    cfg.vcp_memranges.length > VMM_MAX_MEM_RANGES ∨
    cfg.vmc_ndisks > VM_MAX_DISKS_PER_VM ∨
    cfg.vmc_nnics > VM_MAX_NICS_PER_VM

instance (cfg : VmCfg) : Decidable (InvalidCfg cfg) := by
  unfold InvalidCfg
  infer_instance

/- ### The migration stream and send_vm / restore (claims C1, C2, C6, C9)

The dump is a raw byte stream written with `atomicio`; it is modelled at the
granularity of the C structs written, one `DumpRec` constructor per record.
Reading a record of the wrong shape corresponds to misinterpreting raw
bytes and is modelled as a fatal error, matching the `fatal`/`-1` paths of
the restore side. -/

/-- One record of the migration stream: the dump header, the
`vmop_create_params` copy, a `vm_rwregs_params` record (VCPU id plus the
opaque register state), one `PAGE_SIZE` memory chunk (its byte contents as
a function on offsets below `PAGE_SIZE`), the opaque device / PCI / virtio
state blobs, and a `vm_rwvmparams_params` record. -/
inductive DumpRec where
  | header
  | vmc (cfg : VmCfg)
  | regs (vcpuId : Nat) (r : Nat)
  | page (content : Nat → Nat)
  | devs
  | pci
  | virtio
  | vmparams (vcpuId : Nat) (p : Nat)

/-- Outcomes of every fallible step of `send_vm` (vm.c:470-563), one field
per failure point: the dump-header write, the `calloc`, the
`vmop_create_params` write, the per-VCPU `VMM_IOC_READREGS` ioctl and
register-record write, the per-chunk `read_mem` and chunk write of
`dump_vmr` (indexed by range and chunk), the return values of `dump_devs`,
`pci_dump` and `virtio_dump`, the per-VCPU `VMM_IOC_READVMPARAMS` ioctl
and parameter-record write, and the final `VMM_IOC_TERM` ioctl. -/
structure SendEnv where
  headerOk : Bool
  callocOk : Bool
  vmcWriteOk : Bool
  readRegsOk : Nat → Bool
  regsWriteOk : Nat → Bool
  memReadOk : Nat → Nat → Bool
  memWriteOk : Nat → Nat → Bool
  devsRet : Int
  pciRet : Int
  virtioRet : Int
  readParamsOk : Nat → Bool
  paramsWriteOk : Nat → Bool
  termOk : Bool

/-- Result of `send_vm`: the returned `ret`, the records written to the
target descriptor, whether `pause_vm` ran, whether the error path called
`unpause_vm`, and the final paused flag. -/
structure SendOut where
  ret : Int
  stream : List DumpRec
  pausedCalled : Bool
  unpauseCalled : Bool
  finalPaused : Bool

/-- The shared error exit of `send_vm` (vm.c:558-562): close the fd, and
`unpause_vm` exactly when `ret` is non-zero.  Used on paths reached after
`pause_vm`, so the flag is set and a non-zero `ret` leaves it cleared. -/
def sendErrOut (r : Int) (s : List DumpRec) : SendOut :=
  { ret := r, stream := s, pausedCalled := true,
    unpauseCalled := r != 0, finalPaused := r == 0 }

/-- The per-VCPU register dump loop of `send_vm` (vm.c:511-525), for VCPU
indices `base, base+1, ...` (`cnt` many): `VMM_IOC_READREGS` then an
`atomicio` write of the `vm_rwregs_params` record; either failure takes
the error exit.  The payload carries the records written so far. -/
def sendRegsLoop (env : SendEnv) (st : KernState) (base : Nat) :
    Nat → Except (List DumpRec) (List DumpRec)
  | 0 => .ok []
  | cnt + 1 =>
    if ¬ env.readRegsOk base then .error []
    else if ¬ env.regsWriteOk base then .error []
    else
      match sendRegsLoop env st (base + 1) cnt with
      | .ok tr => .ok (.regs base (st.regs base) :: tr)
      | .error tr => .error (.regs base (st.regs base) :: tr)

/-- The chunk loop of `dump_vmr` (vm.c:613-632) for range index `ri`
starting at guest-physical address `gpa`, chunk index `ci`, `cnt` chunks
remaining: `read_mem` a page into `buf`, write it with `atomicio`;
either failure returns `-1`. -/
def dumpVmrLoop (env : SendEnv) (mem : GMem) (ri gpa ci : Nat) :
    Nat → Except (List DumpRec) (List DumpRec)
  | 0 => .ok []
  | cnt + 1 =>
    if ¬ env.memReadOk ri ci then .error []
    else if ¬ env.memWriteOk ri ci then .error []
    else
      match dumpVmrLoop env mem ri (gpa + PAGE_SIZE) (ci + 1) cnt with
      | .ok tr => .ok (.page (fun j => mem (gpa + j)) :: tr)
      | .error tr => .error (.page (fun j => mem (gpa + j)) :: tr)

/-- `dump_vmr` for one range: `vmr_size / PAGE_SIZE` chunks in ascending
offset order.  A size that is not a page multiple makes the source's
`while (rem > 0)` loop wrap around and diverge (see `dumpVmrRem`); the
model returns the error exit in that case. -/
def dump_vmr (env : SendEnv) (mem : GMem) (ri : Nat) (r : MemRange) :
    Except (List DumpRec) (List DumpRec) :=
  if PAGE_SIZE ∣ r.vmr_size then
    dumpVmrLoop env mem ri r.vmr_gpa 0 (r.vmr_size / PAGE_SIZE)
  else .error []

/-- `dump_mem` (vm.c:565-579): dump each range of `vcp_memranges` in list
order; a failing `dump_vmr` propagates. -/
def dumpMemLoop (env : SendEnv) (mem : GMem) (ri : Nat) :
    List MemRange → Except (List DumpRec) (List DumpRec)
  | [] => .ok []
  | r :: rest =>
    match dump_vmr env mem ri r with
    | .error tr => .error tr
    | .ok tr =>
      match dumpMemLoop env mem (ri + 1) rest with
      | .ok tr2 => .ok (tr ++ tr2)
      | .error tr2 => .error (tr ++ tr2)

/-- The per-VCPU VM-parameter dump loop of `send_vm` (vm.c:537-551):
`VMM_IOC_READVMPARAMS` then an `atomicio` write of the
`vm_rwvmparams_params` record. -/
def sendParamsLoop (env : SendEnv) (st : KernState) (base : Nat) :
    Nat → Except (List DumpRec) (List DumpRec)
  | 0 => .ok []
  | cnt + 1 =>
    if ¬ env.readParamsOk base then .error []
    else if ¬ env.paramsWriteOk base then .error []
    else
      match sendParamsLoop env st (base + 1) cnt with
      | .ok tr => .ok (.vmparams base (st.vmparams base) :: tr)
      | .error tr => .error (.vmparams base (st.vmparams base) :: tr)

/-- `send_vm` (vm.c:470-563).  Control flow as in the source: write the
dump header (on failure `goto err` with `ret` still holding its initial
`0`, so no unpause happens and `0` is returned); `pause_vm`; `calloc` and
write the creation parameters; dump per-VCPU registers; dump memory, then
the device, PCI and virtio state; dump per-VCPU VM parameters; finally the
`VMM_IOC_TERM` ioctl, whose failure is only logged.  The error exit
unpauses exactly when `ret` is non-zero. -/
def send_vm (env : SendEnv) (cfg : VmCfg) (st : KernState) (paused0 : Bool) :
    SendOut :=
  if ¬ env.headerOk then
    { ret := 0, stream := [], pausedCalled := false, unpauseCalled := false,
      finalPaused := paused0 }
  else
    -- pause_vm(vm): the VM is paused from here on.
    if ¬ env.callocOk then sendErrOut (-1) [.header]
    else if ¬ env.vmcWriteOk then sendErrOut (-1) [.header]
    else
      match sendRegsLoop env st 0 cfg.vcp_ncpus with
      | .error tr => sendErrOut (-1) ([.header, .vmc cfg] ++ tr)
      | .ok tr =>
        match dumpMemLoop env st.mem 0 cfg.vcp_memranges with
        | .error tr2 => sendErrOut (-1) ([.header, .vmc cfg] ++ tr ++ tr2)
        | .ok tr2 =>
          if env.devsRet ≠ 0 then
            sendErrOut env.devsRet ([.header, .vmc cfg] ++ tr ++ tr2)
          else if env.pciRet ≠ 0 then
            sendErrOut env.pciRet ([.header, .vmc cfg] ++ tr ++ tr2 ++ [.devs])
          else if env.virtioRet ≠ 0 then
            sendErrOut env.virtioRet
              ([.header, .vmc cfg] ++ tr ++ tr2 ++ [.devs, .pci])
          else
            match sendParamsLoop env st 0 cfg.vcp_ncpus with
            | .error tr3 => sendErrOut (-1)
                ([.header, .vmc cfg] ++ tr ++ tr2 ++ [.devs, .pci, .virtio] ++ tr3)
            | .ok tr3 =>
              -- VMM_IOC_TERM: a failure is logged but does not change ret.
              { ret := 0,
                stream := [.header, .vmc cfg] ++ tr ++ tr2 ++
                  [.devs, .pci, .virtio] ++ tr3,
                pausedCalled := true, unpauseCalled := false,
                finalPaused := true }

/-- All I/O steps of `send_vm` succeed (the `VMM_IOC_TERM` outcome is
deliberately unconstrained: it cannot fail the dump). -/
def SendEnvOk (env : SendEnv) : Prop :=
  env.headerOk = true ∧ env.callocOk = true ∧ env.vmcWriteOk = true ∧
    (∀ i, env.readRegsOk i = true) ∧ (∀ i, env.regsWriteOk i = true) ∧
    (∀ i k, env.memReadOk i k = true) ∧ (∀ i k, env.memWriteOk i k = true) ∧
    env.devsRet = 0 ∧ env.pciRet = 0 ∧ env.virtioRet = 0 ∧
    (∀ i, env.readParamsOk i = true) ∧ (∀ i, env.paramsWriteOk i = true)

/-- An environment where every step of `send_vm` succeeds. -/
def sendEnvAllOk : SendEnv :=
  { headerOk := true, callocOk := true, vmcWriteOk := true,
    readRegsOk := fun _ => true, regsWriteOk := fun _ => true,
    memReadOk := fun _ _ => true, memWriteOk := fun _ _ => true,
    devsRet := 0, pciRet := 0, virtioRet := 0,
    readParamsOk := fun _ => true, paramsWriteOk := fun _ => true,
    termOk := true }

/-- An environment where only the dump-header write fails. -/
def sendEnvHeaderFail : SendEnv :=
  { sendEnvAllOk with headerOk := false }

/-- `vm_dispatch_vmm`, `IMSG_VMDOP_SEND_VM_REQUEST` case (vm.c:409-420):
after `send_vm` returns, the process flushes the response and `_exit(0)`s
exactly when the returned result is `0`. -/
def dispatchSendExits (r : Int) : Bool := r == 0

/- ### The restore path (start_vm receive branch, restore_mem,
restore_vm_params, run_vm register write-back) -/

/-- `write_mem(gpa + wrote, buf, PAGE_SIZE)`: overwrite one page of guest
memory starting at `gpa` with the chunk contents. -/
def writePage (mem : GMem) (gpa : Nat) (content : Nat → Nat) : GMem :=
  fun a => if gpa ≤ a ∧ a < gpa + PAGE_SIZE then content (a - gpa) else mem a

/-- The chunk loop of `restore_vmr` (vm.c:634-648): read `cnt` page records
starting at guest-physical address `gpa` and write each into guest memory;
a record of the wrong shape is a short/garbled read, which is `fatal` in
the source. -/
def readPages : Nat → Nat → GMem → List DumpRec → Option (GMem × List DumpRec)
  | 0, _, mem, s => some (mem, s)
  | cnt + 1, gpa, mem, s =>
    match s with
    | .page f :: rest => readPages cnt (gpa + PAGE_SIZE) (writePage mem gpa f) rest
    | _ => none

/-- `restore_vmr` for one range: `vmr_size / PAGE_SIZE` chunks in ascending
offset order.  As in `dump_vmr`, a non-page-multiple size diverges in the
source (see `dumpVmrRem`); the model returns `none` in that case. -/
def restore_vmr (r : MemRange) (s : List DumpRec) (mem : GMem) :
    Option (GMem × List DumpRec) :=
  if PAGE_SIZE ∣ r.vmr_size then readPages (r.vmr_size / PAGE_SIZE) r.vmr_gpa mem s
  else none

/-- `restore_mem` (vm.c:601-611): restore each range of `vcp_memranges` in
list order. -/
def restore_mem : List MemRange → List DumpRec → GMem → Option (GMem × List DumpRec)
  | [], s, mem => some (mem, s)
  | r :: rest, s, mem =>
    match restore_vmr r s mem with
    | some ms => restore_mem rest ms.2 ms.1
    | none => none

/-- Modelled from the spec: `restore_emulated_hw` (device and bus state
restoration) is not part of the sources; per the spec's stream format and
the send side it consumes the opaque device-state, PCI and virtio records
in the order `send_vm` wrote them. -/
def restore_emulated_hw_recs (s : List DumpRec) : Option (List DumpRec) :=
  match s with
  | .devs :: .pci :: .virtio :: rest => some rest
  | _ => none

/-- `restore_vm_params` (vm.c:581-599): for each VCPU index `i` below the
count, read one `vm_rwvmparams_params` record, overwrite its
`vpp_vm_id`/`vpp_vcpu_id` with the local VM id and `i`, and apply it with
`VMM_IOC_WRITEVMPARAMS` (so the record's own VCPU id field is ignored and
records are applied in loop-index order). -/
def restore_vm_params_go :
    Nat → Nat → List DumpRec → (Nat → Nat) → Option ((Nat → Nat) × List DumpRec)
  | 0, _, s, ps => some (ps, s)
  | cnt + 1, i, s, ps =>
    match s with
    | .vmparams _ v :: rest =>
      restore_vm_params_go cnt (i + 1) rest (fun k => if k = i then v else ps k)
    | _ => none

/-- The `VMM_IOC_WRITEREGS` loop of `run_vm` (vm.c:947-958): for a received
VM, the single register state `vrs` read in `start_vm` is written to every
VCPU index below the count. -/
def writeRegsLoop : Nat → Nat → Nat → (Nat → Nat) → (Nat → Nat)
  | 0, _, _, rs => rs
  | cnt + 1, i, v, rs => writeRegsLoop cnt (i + 1) v (fun k => if k = i then v else rs k)

/-- The restore pipeline of the vm process for a received VM, assembled
from the source: `start_vm` reads a single `vm_rwregs_params` record and
keeps its register state as `vrs` (vm.c:255-259); `restore_mem` reads the
memory ranges; `restore_emulated_hw` reads the device state;
`restore_vm_params` reads and applies the per-VCPU parameter records;
finally `run_vm` writes `vrs` to every VCPU (vm.c:947-958).  Any
short/garbled read is fatal (`none`). -/
def restore_vm (cfg : VmCfg) (s : List DumpRec) (st : KernState) :
    Option (KernState × List DumpRec) :=
  match s with
  | .regs _ vrs :: s1 =>
    match restore_mem cfg.vcp_memranges s1 st.mem with
    | some ms =>
      match restore_emulated_hw_recs ms.2 with
      | some s3 =>
        match restore_vm_params_go cfg.vcp_ncpus 0 s3 st.vmparams with
        | some ps =>
          some ({ regs := writeRegsLoop cfg.vcp_ncpus 0 vrs st.regs,
                  vmparams := ps.1, mem := ms.1 }, ps.2)
        | none => none
      | none => none
    | none => none
  | _ => none

/-- Modelled from the spec: on the receiving side the parent orchestrator
process consumes the dump header and the `vmop_create_params` record
before handing the stream descriptor to the new vm process as
`vm_receive_fd`; the vm process's own restore path starts at the register
record. -/
def recv_dump_prelude (s : List DumpRec) : Option (List DumpRec) :=
  match s with
  | .header :: .vmc _ :: rest => some rest
  | _ => none

/-- `send_vm` on one side followed by the receive/restore path on a fresh
process with the same configuration: the composition the round-trip claim
is about.  `st` is the kernel state of the sending VM, `st0` the initial
kernel state of the receiving VM. -/
def sendThenRestore (env : SendEnv) (cfg : VmCfg) (st st0 : KernState) :
    Option (KernState × List DumpRec) :=
  match recv_dump_prelude (send_vm env cfg st false).stream with
  | some s => restore_vm cfg s st0
  | none => none

/- Spec-shaped record lists, used to state what the send loops write. -/

/-- The register records `send_vm` writes for VCPUs `base, base+1, ...`
(`cnt` many): VCPU `i`'s record carries its id and its register state. -/
def regsRecs (st : KernState) (base : Nat) : Nat → List DumpRec
  | 0 => []
  | cnt + 1 => .regs base (st.regs base) :: regsRecs st (base + 1) cnt

/-- The page records `dump_vmr` writes for `cnt` chunks starting at `gpa`:
chunk `k` carries the guest-memory bytes at `gpa + k * PAGE_SIZE`. -/
def chunkPages (mem : GMem) (gpa : Nat) : Nat → List DumpRec
  | 0 => []
  | cnt + 1 => .page (fun j => mem (gpa + j)) :: chunkPages mem (gpa + PAGE_SIZE) cnt

/-- The page records `dump_mem` writes: each range's chunks, ranges in list
order. -/
def memStream (mem : GMem) : List MemRange → List DumpRec
  | [] => []
  | r :: rest => chunkPages mem r.vmr_gpa (r.vmr_size / PAGE_SIZE) ++ memStream mem rest

/-- A run of `cnt` VM-parameter records for indices `base, base+1, ...`:
record `i` carries the id `ids i` (which the restore side ignores) and the
value `v i`. -/
def paramRecsI (ids v : Nat → Nat) (base : Nat) : Nat → List DumpRec
  | 0 => []
  | cnt + 1 => .vmparams (ids base) (v base) :: paramRecsI ids v (base + 1) cnt

/-- The VM-parameter records `send_vm` writes for VCPUs `base, base+1, ...`:
each carries its VCPU index and that VCPU's parameter state. -/
def paramRecs (st : KernState) (base cnt : Nat) : List DumpRec :=
  paramRecsI (fun i => i) st.vmparams base cnt

/-- Address `a` lies in one of the memory ranges. -/
def InRanges (ranges : List MemRange) (a : Nat) : Prop :=
  ∃ r ∈ ranges, r.vmr_gpa ≤ a ∧ a < r.vmr_gpa + r.vmr_size

/- ### vcpu_run_loop (claim C8) -/

/-- `VM_EXIT_NONE`.  Modelled from the spec: exit-reason codes live in
`dev/vmm/vmm.h` (outside the sources); only distinctness matters. -/
def VM_EXIT_NONE : Nat := 65535

/-- `VM_EXIT_TERMINATED`.  Modelled from the spec, as for `VM_EXIT_NONE`. -/
def VM_EXIT_TERMINATED : Nat := 65534

/-- One iteration's environment for `vcpu_run_loop` (vm.c:1107-1212): the
outcome of each fallible pthread operation, the snapshot of the paused and
halted flags taken under `vm_mtx`, the run-ioctl outcome, the exit reason
it reports, and the `vcpu_exit` return value.  (`mutex_lock` /
`mutex_unlock` wrapper calls are not modelled: they `fatal` the whole
process on failure rather than ending the thread.) -/
structure VcpuIterEnv where
  runMtxLockOk : Bool
  paused : Bool
  halted : Bool
  barrierWaitOk : Bool
  unpauseMtxLockOk : Bool
  unpauseCondWaitOk : Bool
  unpauseMtxUnlockOk : Bool
  runCondWaitOk : Bool
  runMtxUnlockOk : Bool
  runIoctlOk : Bool
  exitReason : Nat
  vcpuExitRet : Int

/-- How one iteration of the `for (;;)` loop of `vcpu_run_loop` ends:
loop again, `return` from inside the loop (skipping the code after the
loop), or `break` (falling through to the code after the loop). -/
inductive VcpuStepRes where
  | next
  | earlyReturn (ret : Int)
  | breakLoop (ret : Int)
  deriving DecidableEq, Repr

/-- One iteration of `vcpu_run_loop` (vm.c:1107-1212), in source order:
lock the run mutex (failure: `return`); snapshot `paused`/`halted`; if
halted and paused, wait on the pause barrier (failure: `return`), lock the
unpause mutex (failure: `return`), wait on the unpause condition (failure:
`break`), unlock the unpause mutex (failure: `break`); if halted, wait on
the run condition (failure: `break`); unlock the run mutex (failure:
`break`); run the VCPU via `VMM_IOC_RUN` (failure: `break` with errno);
a `VM_EXIT_TERMINATED` reason breaks with 0; any other non-`VM_EXIT_NONE`
reason goes to `vcpu_exit`, breaking on a non-zero return. -/
def vcpu_run_iter (e : VcpuIterEnv) : VcpuStepRes :=
  if ¬ e.runMtxLockOk then .earlyReturn 1
  else if e.halted ∧ e.paused ∧ ¬ e.barrierWaitOk then .earlyReturn 1
  else if e.halted ∧ e.paused ∧ ¬ e.unpauseMtxLockOk then .earlyReturn 1
  else if e.halted ∧ e.paused ∧ ¬ e.unpauseCondWaitOk then .breakLoop 1
  else if e.halted ∧ e.paused ∧ ¬ e.unpauseMtxUnlockOk then .breakLoop 1
  else if e.halted ∧ ¬ e.runCondWaitOk then .breakLoop 1
  else if ¬ e.runMtxUnlockOk then .breakLoop 1
  else if ¬ e.runIoctlOk then .breakLoop 1
  else if e.exitReason = VM_EXIT_TERMINATED then .breakLoop 0
  else if e.exitReason ≠ VM_EXIT_NONE then
    (if e.vcpuExitRet ≠ 0 then .breakLoop e.vcpuExitRet else .next)
  else .next

/-- What `vcpu_run_loop` leaves behind when its thread function returns:
the returned status and whether the epilogue after the loop ran —
`vcpu_done[n] = 1` under `vm_mtx`, then `pthread_cond_signal(&threadcond)`
under `threadmutex` (vm.c:1214-1222). -/
structure VcpuLoopOut where
  ret : Int
  doneSet : Bool
  signaled : Bool
  deriving DecidableEq, Repr

/-- `vcpu_run_loop`, driven by one `VcpuIterEnv` per iteration (`none`
when the supplied iterations end with the loop still running): a `break`
falls through to the epilogue, which sets the done flag and signals the
completion condition; a `return` from inside the loop skips it. -/
def vcpu_run_loop : List VcpuIterEnv → Option VcpuLoopOut
  | [] => none
  | e :: rest =>
    match vcpu_run_iter e with
    | .next => vcpu_run_loop rest
    | .earlyReturn r => some ⟨r, false, false⟩
    | .breakLoop r => some ⟨r, true, true⟩

/- ### Concrete inputs for witnesses and counterexamples -/

/-- A pause environment whose pthread operations all succeed. -/
def pauseEnvAllOk : PauseEnv :=
  { barrierInitOk := true, broadcastOk := fun _ => true,
    barrierWaitOk := true, barrierDestroyOk := true }

/-- An `mmap` outcome is a failure (`MAP_FAILED`). -/
def mmapFailed (r : Except Nat Nat) : Bool :=
  match r with
  | .error _ => true
  | .ok _ => false

/-- Placeholder `MemRange` used as a list-indexing default. -/
def mrDefault : MemRange := ⟨0, 0, MemType.ram, 0⟩

/-- Three one-page RAM ranges. -/
def rs3 : List MemRange :=
  [⟨0, 4096, MemType.ram, 0⟩, ⟨4096, 4096, MemType.ram, 0⟩,
    ⟨8192, 4096, MemType.ram, 0⟩]

/-- An `mmap` oracle that always succeeds, with distinct non-zero
addresses. -/
def mmapOkOr : Nat → Except Nat Nat := fun i => .ok (40960 + 4096 * i)

/-- An `mmap` oracle failing with `ENOMEM` (12) at the second range. -/
def mmapFail1Or : Nat → Except Nat Nat :=
  fun i => if i = 1 then .error 12 else .ok (40960 + 4096 * i)

/-- A single one-page MMIO range. -/
def rsMmio : List MemRange := [⟨4096, 4096, MemType.mmio, 0⟩]

/-- A RAM range followed by an MMIO range. -/
def rsRamMmio : List MemRange :=
  [⟨0, 4096, MemType.ram, 0⟩, ⟨4096, 4096, MemType.mmio, 0⟩]

/-- An invalid configuration: 65 VCPUs exceeds `VMM_MAX_VCPUS_PER_VM`. -/
def cfgTooManyCpus : VmCfg := ⟨65, [⟨0, 4096, MemType.ram, 0⟩], 0, 0⟩

/-- A kernel state with distinct register, parameter and memory contents
per VCPU / address. -/
def kstEx : KernState :=
  { regs := fun i => 1000 + i, vmparams := fun i => 2000 + i,
    mem := fun a => (a + 7) % 256 }

/-- An all-zero kernel state (a fresh receiving VM). -/
def kstZero : KernState :=
  { regs := fun _ => 0, vmparams := fun _ => 0, mem := fun _ => 0 }

/-- One VCPU, one one-page RAM range. -/
def cfgOneCpu : VmCfg := ⟨1, [⟨0, 4096, MemType.ram, 0⟩], 0, 0⟩

/-- Two VCPUs, one one-page RAM range. -/
def cfgTwoCpu : VmCfg := ⟨2, [⟨0, 4096, MemType.ram, 0⟩], 0, 0⟩

/-- Two VCPUs, one two-page RAM range. -/
def cfgTwoCpuB : VmCfg := ⟨2, [⟨4096, 8192, MemType.ram, 0⟩], 0, 0⟩

/-- A `vcpu_run_loop` iteration in which everything succeeds and the run
ioctl reports no exit to handle. -/
def iterEnvBase : VcpuIterEnv :=
  { runMtxLockOk := true, paused := false, halted := false,
    barrierWaitOk := true, unpauseMtxLockOk := true,
    unpauseCondWaitOk := true, unpauseMtxUnlockOk := true,
    runCondWaitOk := true, runMtxUnlockOk := true, runIoctlOk := true,
    exitReason := VM_EXIT_NONE, vcpuExitRet := 0 }

/-- An iteration in which the guest terminates. -/
def iterEnvTerm : VcpuIterEnv :=
  { iterEnvBase with exitReason := VM_EXIT_TERMINATED }

/-- An iteration in which locking the VCPU run mutex fails. -/
def iterEnvLockFail : VcpuIterEnv :=
  { iterEnvBase with runMtxLockOk := false }

section PauseLemmas

theorem pauseBroadcasts_ok (env : PauseEnv) :
    ∀ cnt base, (∀ i, i < cnt → env.broadcastOk (base + i) = true) →
      pauseBroadcasts env base cnt =
        (true, (List.range cnt).map (fun k => PauseEv.runCondBroadcast (base + k))) := by
  intro cnt
  induction cnt with
  | zero => intro base _; simp [pauseBroadcasts]
  | succ c ih =>
    intro base h
    have h0 : env.broadcastOk base = true := by
      have := h 0 (Nat.succ_pos c)
      simpa using this
    have hrest : ∀ i, i < c → env.broadcastOk (base + 1 + i) = true := by
      intro i hi
      have := h (i + 1) (by omega)
      have e : base + (i + 1) = base + 1 + i := by omega
      rwa [e] at this
    have hr := ih (base + 1) hrest
    have hlist : (List.range (c + 1)).map (fun k => PauseEv.runCondBroadcast (base + k)) =
        PauseEv.runCondBroadcast base ::
          (List.range c).map (fun k => PauseEv.runCondBroadcast (base + 1 + k)) := by
      rw [List.range_succ_eq_map, List.map_cons, List.map_map]
      refine congrArg₂ List.cons (by simp) ?_
      apply List.map_congr_left
      intro a _
      simp only [Function.comp_apply]
      congr 1
      omega
    simp only [pauseBroadcasts, h0, if_pos, hr, hlist]

end PauseLemmas

/-- C5 (confirmed): `pause_vm` is a no-op — paused flag unchanged, no
barrier created, no action at all — when the VM is already paused;
otherwise, with the pthread operations succeeding, it sets the paused
flag, creates a fresh rendezvous barrier sized to the VCPU count plus one,
broadcast-wakes every per-VCPU run condition in index order, waits on the
barrier as the `(n+1)`-th party, destroys the barrier, and then invokes
the platform pause hook — in exactly that order, the barrier being created
and destroyed within the call and so never reused across pause cycles. -/
theorem pause_vm_spec (env : PauseEnv) (ncpus : Nat) :
    pause_vm env ncpus true = (true, []) ∧
      (PauseEnvOk env ncpus →
        pause_vm env ncpus false =
          (true, PauseEv.barrierInit (ncpus + 1) ::
            ((List.range ncpus).map PauseEv.runCondBroadcast ++
              [PauseEv.barrierWait, PauseEv.barrierDestroy,
                PauseEv.mdPauseHook]))) := by
  constructor
  · simp [pause_vm]
  · rintro ⟨h1, h2, h3, h4⟩
    have hb := pauseBroadcasts_ok env ncpus 0 (fun i hi => by simpa using h2 i hi)
    simp [pause_vm, h1, h3, h4, hb]

/-- Witness for `pause_vm_spec`: both cases at `ncpus = 2`, all pthread
operations succeeding. -/
theorem pause_vm_spec_witness :
    pause_vm pauseEnvAllOk 2 true = (true, []) ∧
      pause_vm pauseEnvAllOk 2 false =
        (true, [PauseEv.barrierInit 3, PauseEv.runCondBroadcast 0,
          PauseEv.runCondBroadcast 1, PauseEv.barrierWait,
          PauseEv.barrierDestroy, PauseEv.mdPauseHook]) :=
  ⟨(pause_vm_spec pauseEnvAllOk 2).1,
    (pause_vm_spec pauseEnvAllOk 2).2 ⟨rfl, fun _ _ => rfl, rfl, rfl⟩⟩

section DumpVmrRemLemmas

theorem dumpVmrRem_mod (size : Nat) :
    ∀ k, dumpVmrRem size k % PAGE_SIZE = size % PAGE_SIZE := by
  have hdvd : PAGE_SIZE ∣ SIZE_T_MOD := by norm_num [PAGE_SIZE, SIZE_T_MOD]
  have h0 : (SIZE_T_MOD - PAGE_SIZE) % PAGE_SIZE = 0 := by
    norm_num [PAGE_SIZE, SIZE_T_MOD]
  intro k
  induction k with
  | zero => simpa [dumpVmrRem] using Nat.mod_mod_of_dvd size hdvd
  | succ k ih =>
    have h1 : dumpVmrRem size (k + 1) % PAGE_SIZE
        = (dumpVmrRem size k + (SIZE_T_MOD - PAGE_SIZE)) % PAGE_SIZE := by
      simp only [dumpVmrRem]
      exact Nat.mod_mod_of_dvd _ hdvd
    rw [h1, Nat.add_mod, h0, Nat.add_zero, Nat.mod_mod_of_dvd _ dvd_rfl, ih]

theorem dumpVmrRem_exact (size : Nat) (hsz : size < SIZE_T_MOD)
    (hdvd : PAGE_SIZE ∣ size) :
    ∀ k, k ≤ size / PAGE_SIZE → dumpVmrRem size k = size - k * PAGE_SIZE := by
  have hq : size / PAGE_SIZE * PAGE_SIZE = size := Nat.div_mul_cancel hdvd
  have hP : 0 < PAGE_SIZE := by norm_num [PAGE_SIZE]
  have hPM : PAGE_SIZE ≤ SIZE_T_MOD := by norm_num [PAGE_SIZE, SIZE_T_MOD]
  intro k
  induction k with
  | zero => simp [dumpVmrRem, Nat.mod_eq_of_lt hsz]
  | succ k ih =>
    intro hk
    have hrem := ih (Nat.le_of_succ_le hk)
    have hge : PAGE_SIZE ≤ size - k * PAGE_SIZE := by
      have hmul1 : (k + 1) * PAGE_SIZE ≤ size / PAGE_SIZE * PAGE_SIZE :=
        Nat.mul_le_mul_right _ hk
      have hmul2 : (k + 1) * PAGE_SIZE = k * PAGE_SIZE + PAGE_SIZE := by ring
      omega
    have hmul2 : (k + 1) * PAGE_SIZE = k * PAGE_SIZE + PAGE_SIZE := by ring
    have hsplit : size - k * PAGE_SIZE + (SIZE_T_MOD - PAGE_SIZE)
        = SIZE_T_MOD + (size - (k + 1) * PAGE_SIZE) := by
      have hle : k * PAGE_SIZE ≤ size := by omega
      omega
    simp only [dumpVmrRem, hrem, hsplit, Nat.add_mod_left]
    exact Nat.mod_eq_of_lt (by omega)

end DumpVmrRemLemmas

/-- C10 (confirmed): the `rem` counter of the per-range dump/restore loops
(`dump_vmr` / `restore_vmr`), which starts at the range size and is
decremented by one page of `size_t` arithmetic per iteration while
non-zero, reaches zero — terminating the loop, after exactly
`size / PAGE_SIZE` iterations — precisely when the range size is a
multiple of the page size; for any other size it wraps around and is
non-zero after every number of iterations, so the loop never terminates. -/
theorem dump_restore_loop_termination (size : Nat) (hsz : size < SIZE_T_MOD) :
    (¬ PAGE_SIZE ∣ size → ∀ k, dumpVmrRem size k ≠ 0) ∧
      (PAGE_SIZE ∣ size →
        dumpVmrRem size (size / PAGE_SIZE) = 0 ∧
          ∀ k, k < size / PAGE_SIZE → dumpVmrRem size k ≠ 0) := by
  have hP : 0 < PAGE_SIZE := by norm_num [PAGE_SIZE]
  constructor
  · intro hndvd k h0
    apply hndvd
    have hm := dumpVmrRem_mod size k
    rw [h0] at hm
    simp only [Nat.zero_mod] at hm
    exact Nat.dvd_iff_mod_eq_zero.2 hm.symm
  · intro hdvd
    have hq : size / PAGE_SIZE * PAGE_SIZE = size := Nat.div_mul_cancel hdvd
    constructor
    · have := dumpVmrRem_exact size hsz hdvd (size / PAGE_SIZE) le_rfl
      omega
    · intro k hk h0
      have := dumpVmrRem_exact size hsz hdvd k (le_of_lt hk)
      have hlt : k * PAGE_SIZE < size / PAGE_SIZE * PAGE_SIZE :=
        (Nat.mul_lt_mul_right hP).mpr hk
      omega

/-- Witness for `dump_restore_loop_termination`: for a range of size
`6144` (not a page multiple) the counter is still non-zero after 5
iterations; for a page-multiple size `8192` it is zero after exactly 2. -/
theorem dump_restore_loop_termination_witness :
    dumpVmrRem 6144 5 ≠ 0 ∧ dumpVmrRem 8192 2 = 0 :=
  ⟨(dump_restore_loop_termination 6144 (by norm_num [SIZE_T_MOD])).1
      (by norm_num [PAGE_SIZE]) 5,
    ((dump_restore_loop_termination 8192 (by norm_num [SIZE_T_MOD])).2
      (by norm_num [PAGE_SIZE])).1⟩

section AllocLemmas

theorem allocRollback_clears :
    ∀ done : List MemRange,
      allocRollback done (done.map (fun r => (r.vmr_va, r.vmr_size))) = [] := by
  intro done
  induction done with
  | nil => rfl
  | cons r rest ih => simpa [allocRollback, munmapRemove] using ih

theorem alloc_guest_mem_go_err (o : Nat → Except Nat Nat) :
    ∀ (rest : List MemRange) (idx : Nat) (done : List MemRange),
      (∃ k, k < rest.length ∧ mmapFailed (o (idx + k)) = true) →
      ∃ e, alloc_guest_mem_go o idx done
          (done.map (fun r => (r.vmr_va, r.vmr_size))) rest = .error (e, []) := by
  intro rest
  induction rest with
  | nil =>
    rintro idx done ⟨k, hk, -⟩
    simp at hk
  | cons r rs ih =>
    rintro idx done ⟨k, hk, hko⟩
    cases ho : o idx with
    | error e =>
      exact ⟨e, by simp [alloc_guest_mem_go, ho, allocRollback_clears]⟩
    | ok va =>
      have hk0 : k ≠ 0 := by
        intro h0
        rw [h0, Nat.add_zero, ho] at hko
        simp [mmapFailed] at hko
      obtain ⟨k', rfl⟩ : ∃ k', k = k' + 1 := ⟨k - 1, by omega⟩
      rw [show idx + (k' + 1) = idx + 1 + k' by omega] at hko
      have hrec := ih (idx + 1) (done ++ [{ r with vmr_va := va }])
        ⟨k', by simpa using hk, hko⟩
      simp only [List.map_append, List.map_cons, List.map_nil] at hrec
      simpa [alloc_guest_mem_go, ho] using hrec

theorem alloc_guest_mem_go_ok (o : Nat → Except Nat Nat) :
    ∀ (rest : List MemRange) (idx : Nat) (done : List MemRange)
      (live : List Mapping),
      (∀ k, k < rest.length → mmapFailed (o (idx + k)) = false) →
      ∃ out live',
        alloc_guest_mem_go o idx done live rest = .ok (done ++ out, live ++ live') ∧
          out.length = rest.length ∧
          (∀ k, k < rest.length →
            (out.getD k mrDefault).vmr_type = (rest.getD k mrDefault).vmr_type ∧
              o (idx + k) = .ok (out.getD k mrDefault).vmr_va) := by
  intro rest
  induction rest with
  | nil =>
    intro idx done live _
    exact ⟨[], [], by simp [alloc_guest_mem_go], rfl, by intro k hk; simp at hk⟩
  | cons r rs ih =>
    intro idx done live h
    have h0 : mmapFailed (o idx) = false := by simpa using h 0 (by simp)
    cases ho : o idx with
    | error e => rw [ho] at h0; simp [mmapFailed] at h0
    | ok va =>
      have hrest : ∀ k, k < rs.length → mmapFailed (o (idx + 1 + k)) = false := by
        intro k hk
        have := h (k + 1) (by simpa using Nat.succ_lt_succ hk)
        rwa [show idx + (k + 1) = idx + 1 + k by omega] at this
      obtain ⟨out, live', heq, hlen, hprop⟩ :=
        ih (idx + 1) (done ++ [{ r with vmr_va := va }])
          (live ++ [(va, r.vmr_size)]) hrest
      refine ⟨{ r with vmr_va := va } :: out, (va, r.vmr_size) :: live', ?_,
        by simpa using hlen, ?_⟩
      · simpa [alloc_guest_mem_go, ho, List.append_assoc] using heq
      · intro k hk
        cases k with
        | zero => exact ⟨rfl, by simpa using ho⟩
        | succ k' =>
          have := hprop k' (by simpa using Nat.lt_of_succ_lt_succ hk)
          simpa [show idx + (k' + 1) = idx + 1 + k' by omega] using this

theorem remap_guest_mem_go_mmio (o : Nat → Except Nat Nat) :
    ∀ (ranges : List MemRange) (idx : Nat) (out : List MemRange),
      remap_guest_mem_go o idx ranges = .ok out →
      ∀ r ∈ out, r.vmr_type = MemType.mmio → r.vmr_va = 0 := by
  intro ranges
  induction ranges with
  | nil =>
    intro idx out h r hr _
    simp only [remap_guest_mem_go, Except.ok.injEq] at h
    subst h
    simp at hr
  | cons x xs ih =>
    intro idx out h r hr hty
    by_cases hx : x.vmr_type = MemType.mmio
    · rw [remap_guest_mem_go, if_pos hx] at h
      cases hrec : remap_guest_mem_go o (idx + 1) xs with
      | error e => rw [hrec] at h; exact absurd h (by simp)
      | ok out' =>
        rw [hrec] at h
        simp only [Except.ok.injEq] at h
        subst h
        rcases List.mem_cons.mp hr with h1 | h1
        · subst h1; rfl
        · exact ih (idx + 1) out' hrec r h1 hty
    · rw [remap_guest_mem_go, if_neg hx] at h
      cases ho : o idx with
      | error e => rw [ho] at h; exact absurd h (by simp)
      | ok va =>
        rw [ho] at h
        cases hrec : remap_guest_mem_go o (idx + 1) xs with
        | error e => rw [hrec] at h; exact absurd h (by simp)
        | ok out' =>
          rw [hrec] at h
          simp only [Except.ok.injEq] at h
          subst h
          rcases List.mem_cons.mp hr with h1 | h1
          · subst h1; exact absurd hty hx
          · exact ih (idx + 1) out' hrec r h1 hty

end AllocLemmas

/-- C3 (confirmed): if the `mmap` for any range fails, `alloc_guest_mem`
unmaps every mapping it created earlier in the same call and returns the
failure: the result is the failing `errno` together with an *empty*
residual mapping set — a partial set of mappings is never left behind.
(`start_vm` then reports the errno, on `ENOMEM` together with the
`RLIMIT_DATA` resource limit; that logging is not modelled.) -/
theorem alloc_guest_mem_rollback (o : Nat → Except Nat Nat)
    (ranges : List MemRange) (i : Nat) (hi : i < ranges.length)
    (hf : mmapFailed (o i) = true) :
    ∃ e, alloc_guest_mem o ranges = .error (e, []) :=
  alloc_guest_mem_go_err o ranges 0 [] ⟨i, hi, by simpa using hf⟩

/-- Witness for `alloc_guest_mem_rollback`: three ranges with the second
`mmap` failing with `ENOMEM`; the call returns the error and no residual
mapping. -/
theorem alloc_guest_mem_rollback_witness :
    alloc_guest_mem mmapFail1Or rs3 = .error (12, []) := by
  have _h := alloc_guest_mem_rollback mmapFail1Or rs3 1 (by decide) (by decide)
  exact rfl

/-- C4 counterexample: `alloc_guest_mem` has no type check in its loop, so
a memory-range list consisting of a single MMIO range gets a backing
mapping: after successful allocation the MMIO range's virtual address is
the (non-null) `mmap` result `40960`, refuting "MMIO-type ranges are never
backed by allocated memory / MMIO ranges have none". -/
theorem alloc_guest_mem_maps_mmio_counterexample :
    alloc_guest_mem mmapOkOr rsMmio =
      .ok ([⟨4096, 4096, MemType.mmio, 40960⟩], [(40960, 4096)]) ∧
      (40960 : Nat) ≠ 0 :=
  ⟨rfl, by decide⟩

/-- C4 (corrected): `alloc_guest_mem` allocates a backing mapping for
*every* range — MMIO ranges included, since its loop has no type check —
so after success every range of whatever type carries the non-null address
of a fresh mapping; the part of the claim that does hold is that
`remap_guest_mem` (used for a handed-off VM) skips MMIO ranges and leaves
their virtual addresses at zero. -/
theorem alloc_maps_all_remap_zeroes_mmio (o : Nat → Except Nat Nat)
    (ranges : List MemRange)
    (hok : ∀ k, k < ranges.length → ∃ va, o k = .ok va ∧ va ≠ 0) :
    (∃ out live, alloc_guest_mem o ranges = .ok (out, live) ∧
      out.length = ranges.length ∧
      ∀ k, k < ranges.length →
        (out.getD k mrDefault).vmr_type = (ranges.getD k mrDefault).vmr_type ∧
          (out.getD k mrDefault).vmr_va ≠ 0) ∧
    (∀ ioc out, remap_guest_mem o ranges ioc = .ok out →
      ∀ r ∈ out, r.vmr_type = MemType.mmio → r.vmr_va = 0) := by
  constructor
  · have hco : ∀ k, k < ranges.length → mmapFailed (o k) = false := by
      intro k hk
      obtain ⟨va, hva, -⟩ := hok k hk
      simp [mmapFailed, hva]
    obtain ⟨out, live', heq, hlen, hprop⟩ :=
      alloc_guest_mem_go_ok o ranges 0 [] []
        (fun k hk => by simpa using hco k hk)
    refine ⟨out, live', by simpa [alloc_guest_mem] using heq, hlen, ?_⟩
    intro k hk
    obtain ⟨hty, hva⟩ := hprop k hk
    obtain ⟨va, hva2, hvn⟩ := hok k hk
    refine ⟨hty, ?_⟩
    rw [show (0 : Nat) + k = k by omega] at hva
    rw [hva] at hva2
    simp only [Except.ok.injEq] at hva2
    omega
  · intro ioc out h
    unfold remap_guest_mem at h
    cases hgo : remap_guest_mem_go o 0 ranges with
    | error e => rw [hgo] at h; exact absurd h (by simp)
    | ok out' =>
      rw [hgo] at h
      by_cases hioc : ioc = true
      · subst hioc
        simp only [if_pos] at h
        simp only [Except.ok.injEq] at h
        subst h
        exact remap_guest_mem_go_mmio o ranges 0 out' hgo
      · simp only [Bool.not_eq_true] at hioc
        subst hioc
        exact absurd h (by simp)

/-- Witness for `alloc_maps_all_remap_zeroes_mmio`: a RAM range followed
by an MMIO range; allocation succeeds (both backed) and the remap path
leaves the MMIO range's address at zero while the RAM range gets the
fresh mapping. -/
theorem alloc_maps_all_remap_zeroes_mmio_witness :
    remap_guest_mem mmapOkOr rsRamMmio true =
      .ok [⟨0, 4096, MemType.ram, 40960⟩, ⟨4096, 4096, MemType.mmio, 0⟩] ∧
      alloc_guest_mem mmapOkOr rsRamMmio =
        .ok ([⟨0, 4096, MemType.ram, 40960⟩, ⟨4096, 4096, MemType.mmio, 45056⟩],
          [(40960, 4096), (45056, 4096)]) := by
  have _h := alloc_maps_all_remap_zeroes_mmio mmapOkOr rsRamMmio
    (fun k _ => ⟨40960 + 4096 * k, rfl, by omega⟩)
  exact ⟨rfl, rfl⟩

section StartVmLemmas

theorem vmm_create_vm_check_invalid (cfg : VmCfg) (h : InvalidCfg cfg) :
    vmm_create_vm_check cfg = some EINVAL := by
  unfold InvalidCfg at h
  unfold vmm_create_vm_check
  split_ifs <;> first | rfl | omega

end StartVmLemmas

/-- C7 counterexample: for the invalid configuration with 65 VCPUs (above
the platform maximum of 64) and one RAM range, `start_vm` runs
`alloc_guest_mem` *before* any validation: at the moment the `EINVAL`
configuration error is produced by `vmm_create_vm`'s sanity checks, a
guest-memory mapping has already been acquired and is held — refuting
"fails ... before any resource is acquired — in particular before any
guest memory is allocated". -/
theorem start_vm_allocates_before_validation_counterexample :
    start_vm_head mmapOkOr true cfgTooManyCpus =
      ⟨.error 22, [(40960, 4096)], false⟩ ∧
      InvalidCfg cfgTooManyCpus ∧ [((40960 : Nat), (4096 : Nat))] ≠ [] :=
  ⟨rfl, by decide, by decide⟩

/-- C7 (corrected): for every invalid configuration (CPU count above the
platform maximum, memory-range count outside `[1, max]`, or disk/NIC
counts above their maxima), VM startup fails with the configuration error
`EINVAL` *before the kernel VM object is created* — the `VMM_IOC_CREATE`
ioctl is never reached — but only after `alloc_guest_mem` has run: when
allocation succeeds, the configuration error is returned while the
guest-memory mappings are still held. -/
theorem invalid_cfg_fails_before_kernel_create (o : Nat → Except Nat Nat)
    (ioc : Bool) (cfg : VmCfg) (hinv : InvalidCfg cfg) :
    (start_vm_head o ioc cfg).kernelCreateAttempted = false ∧
      (∀ out live, alloc_guest_mem o cfg.vcp_memranges = .ok (out, live) →
        (start_vm_head o ioc cfg).result = .error EINVAL ∧
          (start_vm_head o ioc cfg).heldMappings = live) := by
  have hc := vmm_create_vm_check_invalid cfg hinv
  constructor
  · unfold start_vm_head
    cases halloc : alloc_guest_mem o cfg.vcp_memranges with
    | error em => rfl
    | ok ol => simp [hc]
  · intro out live h
    unfold start_vm_head
    rw [h, hc]
    exact ⟨rfl, rfl⟩

/-- Witness for `invalid_cfg_fails_before_kernel_create` at the concrete
over-limit configuration: `EINVAL` result, kernel creation not reached. -/
theorem invalid_cfg_fails_before_kernel_create_witness :
    (start_vm_head mmapOkOr true cfgTooManyCpus).result = .error EINVAL ∧
      (start_vm_head mmapOkOr true cfgTooManyCpus).kernelCreateAttempted = false := by
  have h := invalid_cfg_fails_before_kernel_create mmapOkOr true cfgTooManyCpus
    (by decide)
  exact ⟨(h.2 [⟨0, 4096, MemType.ram, 40960⟩] [(40960, 4096)] rfl).1, h.1⟩

section SendLemmas

theorem sendRegsLoop_ok (env : SendEnv) (st : KernState)
    (h1 : ∀ i, env.readRegsOk i = true) (h2 : ∀ i, env.regsWriteOk i = true) :
    ∀ cnt base, sendRegsLoop env st base cnt = .ok (regsRecs st base cnt) := by
  intro cnt
  induction cnt with
  | zero => intro base; rfl
  | succ c ih =>
    intro base
    simp [sendRegsLoop, regsRecs, h1 base, h2 base, ih (base + 1)]

theorem dumpVmrLoop_ok (env : SendEnv) (mem : GMem)
    (h1 : ∀ i k, env.memReadOk i k = true)
    (h2 : ∀ i k, env.memWriteOk i k = true) :
    ∀ cnt ri gpa ci, dumpVmrLoop env mem ri gpa ci cnt = .ok (chunkPages mem gpa cnt) := by
  intro cnt
  induction cnt with
  | zero => intro ri gpa ci; rfl
  | succ c ih =>
    intro ri gpa ci
    simp [dumpVmrLoop, chunkPages, h1 ri ci, h2 ri ci, ih ri (gpa + PAGE_SIZE) (ci + 1)]

theorem dumpMemLoop_ok (env : SendEnv) (mem : GMem)
    (h1 : ∀ i k, env.memReadOk i k = true)
    (h2 : ∀ i k, env.memWriteOk i k = true) :
    ∀ (ranges : List MemRange) (ri : Nat),
      (∀ r ∈ ranges, PAGE_SIZE ∣ r.vmr_size) →
      dumpMemLoop env mem ri ranges = .ok (memStream mem ranges) := by
  intro ranges
  induction ranges with
  | nil => intro ri _; rfl
  | cons r rs ih =>
    intro ri h
    have hr : PAGE_SIZE ∣ r.vmr_size := h r (List.mem_cons_self r rs)
    have hrs : ∀ x ∈ rs, PAGE_SIZE ∣ x.vmr_size :=
      fun x hx => h x (List.mem_cons_of_mem r hx)
    simp [dumpMemLoop, dump_vmr, hr, memStream,
      dumpVmrLoop_ok env mem h1 h2, ih (ri + 1) hrs]

theorem sendParamsLoop_ok (env : SendEnv) (st : KernState)
    (h1 : ∀ i, env.readParamsOk i = true)
    (h2 : ∀ i, env.paramsWriteOk i = true) :
    ∀ cnt base, sendParamsLoop env st base cnt = .ok (paramRecs st base cnt) := by
  intro cnt
  induction cnt with
  | zero => intro base; rfl
  | succ c ih =>
    intro base
    simp only [paramRecs] at ih ⊢
    simp [sendParamsLoop, paramRecsI, h1 base, h2 base, ih (base + 1)]

theorem send_vm_ok (env : SendEnv) (henv : SendEnvOk env) (cfg : VmCfg)
    (st : KernState) (p0 : Bool)
    (hdvd : ∀ r ∈ cfg.vcp_memranges, PAGE_SIZE ∣ r.vmr_size) :
    send_vm env cfg st p0 =
      { ret := 0,
        stream := [.header, .vmc cfg] ++ regsRecs st 0 cfg.vcp_ncpus ++
          memStream st.mem cfg.vcp_memranges ++ [.devs, .pci, .virtio] ++
          paramRecs st 0 cfg.vcp_ncpus,
        pausedCalled := true, unpauseCalled := false, finalPaused := true } := by
  obtain ⟨e1, e2, e3, e4, e5, e6, e7, e8, e9, e10, e11, e12⟩ := henv
  simp [send_vm, e1, e2, e3, e8, e9, e10,
    sendRegsLoop_ok env st e4 e5,
    dumpMemLoop_ok env st.mem e6 e7 cfg.vcp_memranges 0 hdvd,
    sendParamsLoop_ok env st e11 e12]

end SendLemmas

section RestoreLemmas

theorem writeRegsLoop_eval :
    ∀ (cnt base : Nat) (v : Nat) (rs : Nat → Nat) (i : Nat),
      writeRegsLoop cnt base v rs i =
        if base ≤ i ∧ i < base + cnt then v else rs i := by
  intro cnt
  induction cnt with
  | zero =>
    intro base v rs i
    simp only [writeRegsLoop]
    rw [if_neg (by omega)]
  | succ c ih =>
    intro base v rs i
    simp only [writeRegsLoop]
    rw [ih]
    by_cases h1 : base + 1 ≤ i ∧ i < base + 1 + c
    · rw [if_pos h1, if_pos (by omega)]
    · rw [if_neg h1]
      by_cases h2 : i = base
    
      · subst h2
        rw [if_pos rfl, if_pos (by omega)]
      · rw [if_neg h2, if_neg (by omega)]

theorem restore_vm_params_go_consume (ids v : Nat → Nat) :
    ∀ (cnt base : Nat) (p0 : Nat → Nat) (tail : List DumpRec),
      ∃ p1, restore_vm_params_go cnt base (paramRecsI ids v base cnt ++ tail) p0
          = some (p1, tail) ∧
        ∀ i, p1 i = if base ≤ i ∧ i < base + cnt then v i else p0 i := by
  intro cnt
  induction cnt with
  | zero =>
    intro base p0 tail
    refine ⟨p0, rfl, ?_⟩
    intro i
    rw [if_neg (by omega)]
  | succ c ih =>
    intro base p0 tail
    obtain ⟨p1, heq, hp⟩ := ih (base + 1) (fun k => if k = base then v base else p0 k) tail
    refine ⟨p1, ?_, ?_⟩
    · simpa [paramRecsI, restore_vm_params_go] using heq
    · intro i
      rw [hp i]
      by_cases h1 : base + 1 ≤ i ∧ i < base + 1 + c
      · rw [if_pos h1, if_pos (by omega)]
      · rw [if_neg h1]
        by_cases h2 : i = base
        · subst h2
          rw [if_pos rfl, if_pos (by omega)]
        · rw [if_neg h2, if_neg (by omega)]

theorem readPages_chunkPages (mem : GMem) :
    ∀ (cnt gpa : Nat) (m0 : GMem) (tail : List DumpRec),
      ∃ m1, readPages cnt gpa m0 (chunkPages mem gpa cnt ++ tail) = some (m1, tail) ∧
        (∀ a, gpa ≤ a ∧ a < gpa + cnt * PAGE_SIZE → m1 a = mem a) ∧
        (∀ a, ¬ (gpa ≤ a ∧ a < gpa + cnt * PAGE_SIZE) → m1 a = m0 a) := by
  intro cnt
  induction cnt with
  | zero =>
    intro gpa m0 tail
    refine ⟨m0, rfl, ?_, fun a _ => rfl⟩
    rintro a ⟨h1, h2⟩
    omega
  | succ c ih =>
    intro gpa m0 tail
    have hm : (c + 1) * PAGE_SIZE = c * PAGE_SIZE + PAGE_SIZE := by ring
    obtain ⟨m1, heq, hin, hout⟩ :=
      ih (gpa + PAGE_SIZE) (writePage m0 gpa (fun j => mem (gpa + j))) tail
    refine ⟨m1, ?_, ?_, ?_⟩
    · simpa [chunkPages, readPages] using heq
    · rintro a ⟨h1, h2⟩
      by_cases hc : gpa + PAGE_SIZE ≤ a
      · exact hin a ⟨hc, by omega⟩
      · rw [hout a (by omega)]
        unfold writePage
        rw [if_pos ⟨h1, by omega⟩]
        show mem (gpa + (a - gpa)) = mem a
        congr 1
        omega
    · intro a hn
      rw [hout a (by omega)]
      unfold writePage
      rw [if_neg (by omega)]

theorem inRanges_cons (r : MemRange) (rs : List MemRange) (a : Nat) :
    InRanges (r :: rs) a ↔
      (r.vmr_gpa ≤ a ∧ a < r.vmr_gpa + r.vmr_size) ∨ InRanges rs a := by
  constructor
  · rintro ⟨x, hx, hb⟩
    rcases List.mem_cons.mp hx with h | h
    · subst h
      exact Or.inl hb
    · exact Or.inr ⟨x, h, hb⟩
  · rintro (hb | ⟨x, hx, hb⟩)
    · exact ⟨r, List.mem_cons_self r rs, hb⟩
    · exact ⟨x, List.mem_cons_of_mem r hx, hb⟩

theorem restore_mem_memStream (mem : GMem) :
    ∀ (ranges : List MemRange) (m0 : GMem) (tail : List DumpRec),
      (∀ r ∈ ranges, PAGE_SIZE ∣ r.vmr_size) →
      ∃ m1, restore_mem ranges (memStream mem ranges ++ tail) m0 = some (m1, tail) ∧
        (∀ a, InRanges ranges a → m1 a = mem a) ∧
        (∀ a, ¬ InRanges ranges a → m1 a = m0 a) := by
  intro ranges
  induction ranges with
  | nil =>
    intro m0 tail _
    refine ⟨m0, rfl, ?_, fun a _ => rfl⟩
    intro a ha
    obtain ⟨x, hx, -⟩ := ha
    simp at hx
  | cons r rs ih =>
    intro m0 tail h
    have hr : PAGE_SIZE ∣ r.vmr_size := h r (List.mem_cons_self r rs)
    have hq : r.vmr_size / PAGE_SIZE * PAGE_SIZE = r.vmr_size := Nat.div_mul_cancel hr
    obtain ⟨mA, heqA, hinA, houtA⟩ := readPages_chunkPages mem
      (r.vmr_size / PAGE_SIZE) r.vmr_gpa m0 (memStream mem rs ++ tail)
    obtain ⟨m1, heq1, hin1, hout1⟩ :=
      ih mA tail (fun x hx => h x (List.mem_cons_of_mem r hx))
    refine ⟨m1, ?_, ?_, ?_⟩
    · rw [show memStream mem (r :: rs) ++ tail
          = chunkPages mem r.vmr_gpa (r.vmr_size / PAGE_SIZE) ++
            (memStream mem rs ++ tail) by simp [memStream]]
      simp only [restore_mem, restore_vmr, if_pos hr, heqA, heq1]
    · intro a ha
      rcases (inRanges_cons r rs a).mp ha with h1 | h1
      · by_cases h2 : InRanges rs a
        · exact hin1 a h2
        · rw [hout1 a h2]
          exact hinA a ⟨h1.1, by omega⟩
      · exact hin1 a h1
    · intro a ha
      have h1 : ¬ InRanges rs a := fun hx => ha ((inRanges_cons r rs a).mpr (Or.inr hx))
      have h2 : ¬ (r.vmr_gpa ≤ a ∧ a < r.vmr_gpa + r.vmr_size) :=
        fun hb => ha ((inRanges_cons r rs a).mpr (Or.inl hb))
      rw [hout1 a h1, houtA a (by omega)]

end RestoreLemmas

/-- C1 counterexample: with two VCPUs (and identical layout on both
sides), `send_vm` writes two per-VCPU register records but the restore
path reads only one (`start_vm`, vm.c:255-259), so `restore_mem` then
misreads the second register record where it expects a memory chunk and
the restore is fatal: the round trip does not reproduce the state. -/
theorem send_restore_roundtrip_counterexample :
    sendThenRestore sendEnvAllOk cfgTwoCpuB kstEx kstZero = none := rfl

/-- C1 (corrected): for every *single-VCPU* configuration whose memory
ranges are page multiples (as `create_memory_map` produces), `send_vm`
followed by the restore path with the same configuration reproduces the
state bit-identically: the VCPU's register record round-trips, every
VCPU's VM-parameter record round-trips, guest memory inside the ranges is
reproduced exactly (memory outside the ranges keeps the receiver's
contents), and the stream is consumed completely.  For VCPU counts above
one the round trip fails (see the counterexample): restore reads only one
register record. -/
theorem send_restore_roundtrip (env : SendEnv) (henv : SendEnvOk env)
    (cfg : VmCfg) (st st0 : KernState) (hn : cfg.vcp_ncpus = 1)
    (hdvd : ∀ r ∈ cfg.vcp_memranges, PAGE_SIZE ∣ r.vmr_size) :
    ∃ st1, sendThenRestore env cfg st st0 = some (st1, []) ∧
      st1.regs 0 = st.regs 0 ∧
      (∀ i, i < cfg.vcp_ncpus → st1.vmparams i = st.vmparams i) ∧
      (∀ a, InRanges cfg.vcp_memranges a → st1.mem a = st.mem a) ∧
      (∀ a, ¬ InRanges cfg.vcp_memranges a → st1.mem a = st0.mem a) := by
  have hsend := send_vm_ok env henv cfg st false hdvd
  obtain ⟨mA, heqA, hinA, houtA⟩ := restore_mem_memStream st.mem
    cfg.vcp_memranges st0.mem
    (DumpRec.devs :: DumpRec.pci :: DumpRec.virtio :: paramRecs st 0 1) hdvd
  obtain ⟨p1, heqP, hp⟩ :=
    restore_vm_params_go_consume (fun i => i) st.vmparams 1 0 st0.vmparams []
  rw [List.append_nil] at heqP
  refine ⟨⟨writeRegsLoop 1 0 (st.regs 0) st0.regs, p1, mA⟩, ?_, ?_, ?_, ?_, ?_⟩
  · unfold sendThenRestore
    rw [hsend, hn]
    simp only [recv_dump_prelude, regsRecs, List.cons_append, List.nil_append,
      List.append_assoc]
    simp only [restore_vm, hn, heqA]
    simp only [restore_emulated_hw_recs, paramRecs, heqP]
  · show writeRegsLoop 1 0 (st.regs 0) st0.regs 0 = st.regs 0
    rw [writeRegsLoop_eval, if_pos (by omega)]
  · intro i hi
    rw [hn] at hi
    show p1 i = st.vmparams i
    rw [hp i, if_pos (by omega)]
  · exact hinA
  · exact houtA

/-- Witness for `send_restore_roundtrip`: one VCPU, one page of RAM, all
I/O succeeding; the restore completes and consumes the whole stream. -/
theorem send_restore_roundtrip_witness :
    (sendThenRestore sendEnvAllOk cfgOneCpu kstEx kstZero).isSome = true := by
  obtain ⟨st1, heq, -, -, -, -⟩ := send_restore_roundtrip sendEnvAllOk
    (by exact ⟨rfl, rfl, rfl, fun _ => rfl, fun _ => rfl, fun _ _ => rfl,
      fun _ _ => rfl, rfl, rfl, rfl, fun _ => rfl, fun _ => rfl⟩)
    cfgOneCpu kstEx kstZero rfl
    (by intro r hr; simp [cfgOneCpu] at hr; subst hr; decide)
  rw [heq]
  rfl

/-- C2 counterexample: for a two-VCPU configuration the restore path does
not read the two per-VCPU register records `send_vm` wrote: `start_vm`
reads exactly one, so `restore_mem` meets the second register record
where the first memory chunk should be and the restore fails instead of
consuming the stream in send order. -/
theorem restore_read_order_counterexample :
    sendThenRestore sendEnvAllOk cfgTwoCpu kstEx kstZero = none := rfl

/-- C2 (corrected): on a stream holding one register record, the memory
ranges' chunks, the device/PCI/virtio state, and `n` VM-parameter
records, the restore path for an `n`-VCPU configuration reads exactly
*one* register record — whatever VCPU id it carries — and applies its
state to every VCPU `0..n-1` in index order; it reads guest memory by
range in the same deterministic range order and page-chunk offset order
in which `send_vm` writes it; and it then reads exactly `n` VM-parameter
records, applying the `i`-th to VCPU `i` regardless of the id stored in
the record.  Everything beyond is left unread. -/
theorem restore_read_and_apply_order (n nd nn rid rv : Nat)
    (ranges : List MemRange) (mem : GMem) (ids v : Nat → Nat)
    (st0 : KernState) (tail : List DumpRec)
    (hdvd : ∀ r ∈ ranges, PAGE_SIZE ∣ r.vmr_size) :
    ∃ st1, restore_vm ⟨n, ranges, nd, nn⟩
        (DumpRec.regs rid rv :: (memStream mem ranges ++
          (DumpRec.devs :: DumpRec.pci :: DumpRec.virtio ::
            (paramRecsI ids v 0 n ++ tail))))
        st0 = some (st1, tail) ∧
      (∀ i, i < n → st1.regs i = rv ∧ st1.vmparams i = v i) ∧
      (∀ i, ¬ i < n → st1.regs i = st0.regs i ∧ st1.vmparams i = st0.vmparams i) ∧
      (∀ a, InRanges ranges a → st1.mem a = mem a) ∧
      (∀ a, ¬ InRanges ranges a → st1.mem a = st0.mem a) := by
  obtain ⟨mA, heqA, hinA, houtA⟩ := restore_mem_memStream mem ranges st0.mem
    (DumpRec.devs :: DumpRec.pci :: DumpRec.virtio ::
      (paramRecsI ids v 0 n ++ tail)) hdvd
  obtain ⟨p1, heqP, hp⟩ := restore_vm_params_go_consume ids v n 0 st0.vmparams tail
  refine ⟨⟨writeRegsLoop n 0 rv st0.regs, p1, mA⟩, ?_, ?_, ?_, hinA, houtA⟩
  · simp only [restore_vm, heqA]
    simp only [restore_emulated_hw_recs, heqP]
  · intro i hi
    constructor
    · show writeRegsLoop n 0 rv st0.regs i = rv
      rw [writeRegsLoop_eval, if_pos (by omega)]
    · show p1 i = v i
      rw [hp i, if_pos (by omega)]
  · intro i hi
    constructor
    · show writeRegsLoop n 0 rv st0.regs i = st0.regs i
      rw [writeRegsLoop_eval, if_neg (by omega)]
    · show p1 i = st0.vmparams i
      rw [hp i, if_neg (by omega)]

/-- Witness for `restore_read_and_apply_order`: two VCPUs, no memory
ranges, parameter records carrying deliberately wrong VCPU ids; the
restore succeeds, applying records by loop index. -/
theorem restore_read_and_apply_order_witness :
    (restore_vm ⟨2, [], 0, 0⟩
      (DumpRec.regs 9 55 :: (memStream (fun a => a) [] ++
        (DumpRec.devs :: DumpRec.pci :: DumpRec.virtio ::
          (paramRecsI (fun _ => 7) (fun i => 500 + i) 0 2 ++ []))))
      kstZero).isSome = true := by
  obtain ⟨st1, heq, -, -, -, -⟩ := restore_read_and_apply_order 2 0 0 9 55 []
    (fun a => a) (fun _ => 7) (fun i => 500 + i) kstZero []
    (by intro r hr; simp at hr)
  rw [heq]
  rfl

/-- C6 (code bug): contrary to the claim, a failing dump-header write does
*not* abort the dump with a failure: `send_vm` reaches its error exit
while `ret` still holds its initial `0`, so it returns success, never
calls `unpause_vm`, and the dispatch path treats the send as having
succeeded and exits the process.  Evaluated here at a concrete send whose
header write fails and whose every later step would succeed. -/
theorem send_header_failure_divergence :
    (send_vm sendEnvHeaderFail cfgOneCpu kstEx false).ret = 0 ∧
      (send_vm sendEnvHeaderFail cfgOneCpu kstEx false).unpauseCalled = false ∧
      (send_vm sendEnvHeaderFail cfgOneCpu kstEx false).stream = [] ∧
      dispatchSendExits (send_vm sendEnvHeaderFail cfgOneCpu kstEx false).ret = true :=
  ⟨rfl, rfl, rfl, rfl⟩

/-- C9 (confirmed): whenever writing the dump-format header fails, the
error path is taken with the result variable still holding its initial
zero: `send_vm` returns 0 (success) having written nothing and without
pausing or unpausing anything, and the `IMSG_VMDOP_SEND_VM_REQUEST`
dispatch, seeing result 0, flushes the response and exits the process
even though nothing was dumped. -/
theorem send_header_failure_returns_zero (env : SendEnv) (cfg : VmCfg)
    (st : KernState) (p0 : Bool) (h : env.headerOk = false) :
    send_vm env cfg st p0 =
      { ret := 0, stream := [], pausedCalled := false,
        unpauseCalled := false, finalPaused := p0 } ∧
      dispatchSendExits (send_vm env cfg st p0).ret = true := by
  have h1 : send_vm env cfg st p0 =
      { ret := 0, stream := [], pausedCalled := false,
        unpauseCalled := false, finalPaused := p0 } := by
    unfold send_vm
    rw [if_pos (by simp [h])]
  exact ⟨h1, by rw [h1]; rfl⟩

/-- Witness for `send_header_failure_returns_zero` at a concrete
two-VCPU configuration and state. -/
theorem send_header_failure_returns_zero_witness :
    send_vm sendEnvHeaderFail cfgTwoCpu kstZero true =
      { ret := 0, stream := [], pausedCalled := false,
        unpauseCalled := false, finalPaused := true } :=
  (send_header_failure_returns_zero sendEnvHeaderFail cfgTwoCpu kstZero true rfl).1

/-- C8 counterexample: a failure of the very first operation of the loop
body — locking the VCPU's run mutex — makes `vcpu_run_loop` `return` from
inside the loop (vm.c:1108-1114), skipping the epilogue: the thread exits
without marking its done flag and without signalling the completion
condition, contradicting "on every exit path ... marks its own done flag
... and then signals the VM-wide completion condition". -/
theorem vcpu_exit_without_done_counterexample :
    vcpu_run_loop [iterEnvLockFail] = some ⟨1, false, false⟩ ∧
      (1, false, false) ≠ ((1 : Int), true, true) :=
  ⟨rfl, by decide⟩

/-- C8 (corrected): three failure paths — the run-mutex lock, the
pause-barrier wait, and the unpause-mutex lock — `return` from inside the
loop without marking the done flag or signalling (see the
counterexample); on every *other* exit path (normal termination,
exit-handler failure, run-ioctl failure, and the remaining
condition-variable/unlock failures, all of which `break`), the thread
marks its done flag under the VM-wide lock and then signals the VM-wide
completion condition before returning. -/
theorem vcpu_break_paths_set_done (envs : List VcpuIterEnv)
    (h : ∀ e ∈ envs, e.runMtxLockOk = true ∧ e.barrierWaitOk = true ∧
      e.unpauseMtxLockOk = true) :
    ∀ out, vcpu_run_loop envs = some out →
      out.doneSet = true ∧ out.signaled = true := by
  induction envs with
  | nil =>
    intro out hout
    simp [vcpu_run_loop] at hout
  | cons e rest ih =>
    intro out hout
    have he := h e (List.mem_cons_self e rest)
    have hrest : ∀ x ∈ rest, x.runMtxLockOk = true ∧ x.barrierWaitOk = true ∧
        x.unpauseMtxLockOk = true := fun x hx => h x (List.mem_cons_of_mem e hx)
    unfold vcpu_run_loop at hout
    cases hit : vcpu_run_iter e with
    | next =>
      rw [hit] at hout
      exact ih hrest out hout
    | earlyReturn r =>
      exfalso
      obtain ⟨h1, h2, h3⟩ := he
      unfold vcpu_run_iter at hit
      rw [if_neg (by simp [h1])] at hit
      rw [if_neg (by simp [h2])] at hit
      split_ifs at hit
      all_goals simp_all
    | breakLoop r =>
      rw [hit] at hout
      simp only [Option.some.injEq] at hout
      subst hout
      exact ⟨rfl, rfl⟩

/-- Witness for `vcpu_break_paths_set_done`: one iteration in which the
guest terminates; the loop breaks and the epilogue marks done and
signals. -/
theorem vcpu_break_paths_set_done_witness :
    vcpu_run_loop [iterEnvTerm] = some ⟨0, true, true⟩ ∧
      (⟨0, true, true⟩ : VcpuLoopOut).doneSet = true ∧
      (⟨0, true, true⟩ : VcpuLoopOut).signaled = true := by
  have h := vcpu_break_paths_set_done [iterEnvTerm]
    (by
      intro e he
      simp only [List.mem_singleton] at he
      subst he
      exact ⟨rfl, rfl, rfl⟩)
    ⟨0, true, true⟩ rfl
  exact ⟨rfl, h.1, h.2⟩
